import Mathlib

/-!
Shallow embedding of the live speech capture and streaming-transcription
session engine of `src/hooks/useLiveSession.ts`, together with proofs about
the properties its specification states.

Audio samples are modelled as exact rationals (every Float32 sample value is
a dyadic rational, and all arithmetic the source performs on samples --
scaling by a power of two or by the 15-bit integer 32767, clamping,
truncation to an integer -- is exact in double precision, so the rational
model is faithful).  JavaScript's `ToInt16` coercion (used by `Int16Array`
assignment and `DataView.setInt16`) truncates toward zero and then wraps
modulo 2^16 into the signed range; both steps are modelled explicitly.
-/

/-! ## FrameCodec: sample quantization -/

/-- JavaScript integer truncation (`ToIntegerOrInfinity`): round toward zero. -/
def truncQ (q : ℚ) : ℤ := if 0 ≤ q then ⌊q⌋ else ⌈q⌉

/-- JavaScript `ToInt16`: wrap an integer modulo 2^16 into [-32768, 32767]. -/
def toInt16 (n : ℤ) : ℤ :=
  let m := n % 65536
  if 32768 ≤ m then m - 65536 else m

/-- The unsigned 16-bit two's-complement representation of an integer. -/
def toU16 (n : ℤ) : ℕ := (n % 65536).toNat

/-- `SAMPLE_RATE` constant of the source. -/
def SAMPLE_RATE : ℕ := 16000

/-- The per-sample quantization performed by `createBlob`:
`int16[i] = data[i] * 32768` (assignment into an `Int16Array`). -/
def cbQuant (s : ℚ) : ℤ := toInt16 (truncQ (s * 32768))

/-- Little-endian byte pair of an unsigned 16-bit value (`Int16Array` buffer
viewed as `Uint8Array`, and `DataView.setUint16/setInt16` with `true`). -/
def u16le (x : ℕ) : List ℕ := [x % 256, x / 256 % 256]

/-- Little-endian bytes of a 32-bit value (`DataView.setUint32` with `true`;
the value is wrapped modulo 2^32 by construction of the bytes). -/
def u32le (x : ℕ) : List ℕ :=
  [x % 256, x / 256 % 256, x / 65536 % 256, x / 16777216 % 256]

/-! ## Base64 (`btoa` over the byte string built by `encode`) -/

def b64Alphabet : List Char :=
  "ABCDEFGHIJKLMNOPQRSTUVWXYZabcdefghijklmnopqrstuvwxyz0123456789+/".data

def b64Char (n : ℕ) : Char := b64Alphabet.getD n 'A'

def idxOfChar (c : Char) : List Char → ℕ
  | [] => 0
  | a :: rest => if a = c then 0 else idxOfChar c rest + 1

def b64Index (c : Char) : ℕ := idxOfChar c b64Alphabet

/-- `btoa`: RFC 4648 base64 of a byte sequence, with `=` padding. -/
def btoa : List ℕ → List Char
  | [] => []
  | [b1] => [b64Char (b1 / 4), b64Char (b1 % 4 * 16), '=', '=']
  | [b1, b2] =>
      [b64Char (b1 / 4), b64Char (b1 % 4 * 16 + b2 / 16), b64Char (b2 % 16 * 4), '=']
  | b1 :: b2 :: b3 :: rest =>
      b64Char (b1 / 4) :: b64Char (b1 % 4 * 16 + b2 / 16) ::
      b64Char (b2 % 16 * 4 + b3 / 64) :: b64Char (b3 % 64) :: btoa rest

/-- `encode` of the source: build a binary string from the bytes and `btoa` it. -/
def encode (bytes : List ℕ) : String := String.mk (btoa bytes)

/-- `WireFrame`: the `{ data, mimeType }` object produced by `createBlob`. -/
structure WireFrame where
  data : String
  mimeType : String
deriving Repr, DecidableEq

/-- The little-endian PCM16 bytes of a sample block, as laid out by the
`Int16Array` buffer inside `createBlob`. -/
def createBlobBytes (data : List ℚ) : List ℕ :=
  data.flatMap (fun s => u16le (toU16 (cbQuant s)))

/-- `createBlob` of the source. -/
def createBlob (data : List ℚ) : WireFrame :=
  { data := encode (createBlobBytes data)
    mimeType := "audio/pcm;rate=" ++ toString SAMPLE_RATE }

/-- Modelled from the spec: `decodePCM16` (spec section 8, round-trip
property) is not part of the repository source; it is the inverse reading of
the wire format the spec describes: base64-decode, read 16-bit little-endian
signed samples, divide by 32768.  `atob` is standard base64 decoding. -/
def atob : List Char → List ℕ
  | c1 :: c2 :: c3 :: c4 :: rest =>
      let s1 := b64Index c1
      let s2 := b64Index c2
      let b1 := s1 * 4 + s2 / 16
      if c3 = '=' then [b1]
      else
        let s3 := b64Index c3
        let b2 := s2 % 16 * 16 + s3 / 4
        if c4 = '=' then [b1, b2]
        else b1 :: b2 :: (s3 % 4 * 64 + b64Index c4) :: atob rest
  | _ => []

/-- Modelled from the spec: read little-endian byte pairs as signed 16-bit
samples scaled back into [-1, 1]. -/
def pairsToSamples : List ℕ → List ℚ
  | lo :: hi :: rest => ((toInt16 ((lo + 256 * hi : ℕ) : ℤ) : ℚ) / 32768) :: pairsToSamples rest
  | _ => []

/-- Modelled from the spec: `decodePCM16`. -/
def decodePCM16 (s : String) : List ℚ := pairsToSamples (atob s.data)

/-! ## `createWavBlob` -/

/-- The per-sample quantization performed by the PCM write loop of
`createWavBlob`: clamp to [-1, 1], scale negatives by 0x8000 and
non-negatives by 0x7FFF, then `setInt16`. -/
def wavQuant (s : ℚ) : ℤ :=
  let c := max (-1) (min 1 s)
  toInt16 (truncQ (if c < 0 then c * 32768 else c * 32767))

/-- The PCM payload written by `createWavBlob` after the 44-byte header. -/
def wavData (pcmData : List ℚ) : List ℕ :=
  pcmData.flatMap (fun s => u16le (toU16 (wavQuant s)))

/-- `createWavBlob` of the source, as the byte sequence of the produced
blob: RIFF header, fmt subchunk, data subchunk, PCM payload (all multi-byte
fields little-endian, offsets 0..43 exactly as written by the source). -/
def createWavBlob (pcmData : List ℚ) (sampleRate : ℕ) : List ℕ :=
  let numChannels := 1
  let bitsPerSample := 16
  let bytesPerSample := bitsPerSample / 8
  let blockAlign := numChannels * bytesPerSample
  let byteRate := sampleRate * blockAlign
  let dataSize := pcmData.length * bytesPerSample
  [82, 73, 70, 70] ++ u32le (36 + dataSize) ++ [87, 65, 86, 69] ++
  [102, 109, 116, 32] ++ u32le 16 ++ u16le 1 ++ u16le numChannels ++
  u32le sampleRate ++ u32le byteRate ++ u16le blockAlign ++ u16le bitsPerSample ++
  [100, 97, 116, 97] ++ u32le dataSize ++
  wavData pcmData

/-- Little-endian 16-bit field of a byte sequence at a byte offset. -/
def readU16 (bytes : List ℕ) (off : ℕ) : ℕ :=
  bytes.getD off 0 + 256 * bytes.getD (off + 1) 0

/-- Little-endian 32-bit field of a byte sequence at a byte offset. -/
def readU32 (bytes : List ℕ) (off : ℕ) : ℕ :=
  bytes.getD off 0 + 256 * bytes.getD (off + 1) 0 +
  65536 * bytes.getD (off + 2) 0 + 16777216 * bytes.getD (off + 3) 0

/-! ## TranscriptReconciler: the formatting pipeline of `onmessage` -/

/-- JavaScript's `\s` character class (the set tested by `/\s$/` and `/^\s/`). -/
def isJsWs (c : Char) : Bool :=
  c.toNat = 32 || c.toNat = 9 || c.toNat = 10 || c.toNat = 11 || c.toNat = 12 ||
  c.toNat = 13 || c.toNat = 160 || c.toNat = 5760 ||
  (8192 ≤ c.toNat && c.toNat ≤ 8202) || c.toNat = 8232 || c.toNat = 8233 ||
  c.toNat = 8239 || c.toNat = 8287 || c.toNat = 12288 || c.toNat = 65279

/-- `[a-z]` of the regex `/([a-z])([A-Z])/` (code points 97..122). -/
def isLowerAZ (c : Char) : Bool := decide (97 ≤ c.toNat) && decide (c.toNat ≤ 122)

/-- `[A-Z]` (code points 65..90). -/
def isUpperAZ (c : Char) : Bool := decide (65 ≤ c.toNat) && decide (c.toNat ≤ 90)

/-- `[a-zA-Z]`. -/
def isLetterAZ (c : Char) : Bool := isLowerAZ c || isUpperAZ c

/-- `\d` (code points 48..57). -/
def isDigit09 (c : Char) : Bool := decide (48 ≤ c.toNat) && decide (c.toNat ≤ 57)

/-- `(\.|\?|!|,)`. -/
def isPunctMark (c : Char) : Bool := c = '.' || c = '?' || c = '!' || c = ','

/-- `.replace(/\\n/g, '\n')`: left-to-right non-overlapping replacement of a
literal backslash-n by a newline. -/
def replaceEscNewlines : List Char → List Char
  | '\\' :: 'n' :: rest => '\n' :: replaceEscNewlines rest
  | c :: rest => c :: replaceEscNewlines rest
  | [] => []

/-- `.replace(/([a-z])([A-Z])/g, '$1 $2')`: left-to-right non-overlapping;
after a match the scan resumes after the matched pair. -/
def spaceCamel : List Char → List Char
  | a :: b :: rest =>
      if isLowerAZ a && isUpperAZ b then a :: ' ' :: b :: spaceCamel rest
      else a :: spaceCamel (b :: rest)
  | l => l

/-- `.replace(/(\.|\?|!|,)(\S)/g, '$1 $2')`. -/
def spacePunct : List Char → List Char
  | a :: b :: rest =>
      if isPunctMark a && !isJsWs b then a :: ' ' :: b :: spacePunct rest
      else a :: spacePunct (b :: rest)
  | l => l

/-- `.replace(/([a-zA-Z])(\d)/g, '$1 $2')`. -/
def spaceLetterDigit : List Char → List Char
  | a :: b :: rest =>
      if isLetterAZ a && isDigit09 b then a :: ' ' :: b :: spaceLetterDigit rest
      else a :: spaceLetterDigit (b :: rest)
  | l => l

/-- The `formattedText` derivation of `onmessage`: the four replacements
applied over the whole accumulated buffer, in source order. -/
def formatBuffer (s : String) : String :=
  String.mk (spaceLetterDigit (spacePunct (spaceCamel (replaceEscNewlines s.data))))

/-- JavaScript `split('\n')` (keeps empty segments; `""` splits to `[""]`). -/
def splitChar (sep : Char) : List Char → List (List Char)
  | [] => [[]]
  | c :: rest =>
      if c = sep then [] :: splitChar sep rest
      else
        match splitChar sep rest with
        | l :: ls => (c :: l) :: ls
        | [] => [[c]]

/-- `line ? line.charAt(0).toUpperCase() + line.slice(1) : ''`. -/
def capitalizeLine (l : List Char) : List Char :=
  match l with
  | [] => []
  | c :: rest => c.toUpper :: rest

/-- The `capitalizedLines` passed to `onTranscriptUpdate`: split the buffer
on newlines and capitalize the first character of every line. -/
def displayLines (s : String) : List String :=
  (splitChar '\n' s.data).map (fun l => String.mk (capitalizeLine l))

/-- `/\s$/.test(buffer)`. -/
def endsWithWs (s : String) : Bool :=
  match s.data.getLast? with
  | some c => isJsWs c
  | none => false

/-- `/^\s/.test(text)`. -/
def startsWithWs (s : String) : Bool :=
  match s.data.head? with
  | some c => isJsWs c
  | none => false

/-- JavaScript `String.prototype.trim()`. -/
def trimString (s : String) : String :=
  String.mk (((s.data.dropWhile isJsWs).reverse.dropWhile isJsWs).reverse)

/-! ## SessionController state and transitions (`useLiveSession`) -/

/-- The per-hook state of `useLiveSession`: the React state and refs the
claims are about, plus the externally observable effect logs (frames sent to
the channel, line lists delivered to `onTranscriptUpdate`, devices acquired
and channels opened by `startSession`). -/
structure SessionState where
  isSessionActive : Bool
  isPaused : Bool
  status : String
  error : String
  buffer : String
  lastMessageTime : Option ℕ
  capturedAudioChunks : List (List ℚ)
  sent : List WireFrame
  delivered : List (List String)
  devicesAcquired : ℕ
  channelsOpened : ℕ

/-- The initial hook state. -/
def initState : SessionState :=
  { isSessionActive := false, isPaused := false, status := "", error := ""
    buffer := "", lastMessageTime := none, capturedAudioChunks := []
    sent := [], delivered := [], devicesAcquired := 0, channelsOpened := 0 }

/-- `cleanUpSession`. -/
def cleanUpSession (st : SessionState) : SessionState :=
  { st with isSessionActive := false, isPaused := false,
            buffer := "", lastMessageTime := none, capturedAudioChunks := [] }

/-- `pauseSession`. -/
def pauseSession (st : SessionState) : SessionState :=
  if st.isSessionActive then
    { st with isPaused := true, status := "Live session paused..." }
  else st

/-- `resumeSession`. -/
def resumeSession (st : SessionState) : SessionState :=
  if st.isSessionActive then
    { st with isPaused := false, status := "Live session resumed. Listening..." }
  else st

/-- `startSession` up to the registration of the channel callbacks: the
active-session guard, the API-key guard, the per-session resets, the initial
`onTranscriptUpdate([])`, and the acquisition of the microphone stream and
of the live channel (`getUserMedia` / `live.connect`).  `apiKey` is whether
`localStorage` holds a key. -/
def startSession (st : SessionState) (apiKey : Bool) : SessionState :=
  if st.isSessionActive then st
  else if apiKey = false then
    { st with error := "Missing API Key. Please add it in settings." }
  else
    { st with error := "", status := "Connecting...",
              buffer := "", capturedAudioChunks := [], lastMessageTime := none,
              delivered := st.delivered ++ [[]], isPaused := false,
              devicesAcquired := st.devicesAcquired + 1,
              channelsOpened := st.channelsOpened + 1 }

/-- The `onopen` channel callback. -/
def onOpen (st : SessionState) : SessionState :=
  { st with status := "Connection opened. Listening...", isSessionActive := true }

/-- The `onclose` channel callback. -/
def onClose (st : SessionState) (reason : String) : SessionState :=
  if st.isSessionActive then
    cleanUpSession { st with status := "Connection closed: " ++ reason }
  else st

/-- The `onerror` channel callback. -/
def onError (st : SessionState) (message : String) : SessionState :=
  cleanUpSession { st with error := "Error: " ++ message }

/-- `timeSinceLastMessage` of `onmessage` (zero before any message). -/
def gapSince (st : SessionState) (now : ℕ) : ℕ :=
  match st.lastMessageTime with
  | some t => now - t
  | none => 0

/-- The `onmessage` channel callback, for a message whose model turn joins
to `responseText`; `now` is `Date.now()` at arrival. -/
def onMessage (st : SessionState) (now : ℕ) (responseText : String) : SessionState :=
  let timeSinceLastMessage := gapSince st now
  let st := { st with lastMessageTime := some now }
  if responseText = "" then st
  else
    let separator :=
      if 300 < timeSinceLastMessage ∧ 0 < st.buffer.length ∧
         endsWithWs st.buffer = false ∧ startsWithWs responseText = false
      then " " else ""
    let formattedText := formatBuffer (st.buffer ++ separator ++ responseText)
    { st with buffer := formattedText,
              delivered := st.delivered ++ [displayLines formattedText] }

/-- The `onaudioprocess` callback of the script processor node: archive the
frame unconditionally, send it over the channel only while the session is
active and not paused. -/
def onAudioProcess (st : SessionState) (frame : List ℚ) : SessionState :=
  let st := { st with capturedAudioChunks := st.capturedAudioChunks ++ [frame] }
  if st.isSessionActive && !st.isPaused then
    { st with sent := st.sent ++ [createBlob frame] }
  else st

/-- `stopSession`: returns the new state and the `{ transcript, audioBlob }`
result. -/
def stopSession (st : SessionState) : SessionState × (String × Option (List ℕ)) :=
  if st.isSessionActive = false then (st, ("", none))
  else
    let st1 := { st with status := "Session stopped." }
    let finalTranscript := trimString st.buffer
    let finalAudioBlob : Option (List ℕ) :=
      if 0 < st.capturedAudioChunks.length then
        some (createWavBlob st.capturedAudioChunks.flatten SAMPLE_RATE)
      else none
    (cleanUpSession st1, (finalTranscript, finalAudioBlob))

/-! ## Claim theorems -/

/-- C2: the display-form derivation is NOT idempotent: on the buffer
`"..a"` one application yields `". .a"`, a second application yields
`". . a"`.  The source stores the formatted text back into the buffer and
re-formats it on every message, so the spec's idempotence requirement is
violated by the code. -/
theorem c2_display_derivation_not_idempotent :
    formatBuffer "..a" = ". .a" ∧
    formatBuffer (formatBuffer "..a") = ". . a" ∧
    formatBuffer (formatBuffer "..a") ≠ formatBuffer "..a" := by
  refine ⟨by decide, by decide, by decide⟩

/-- C9: `stopSession` on a non-active controller is a no-op returning the
empty transcript and a null audio container, and does not modify any state. -/
theorem c9_stop_idle_noop (st : SessionState) (h : st.isSessionActive = false) :
    stopSession st = (st, ("", none)) := by
  simp [stopSession, h]

/-- C9 witness: `stopSession` on the initial state. -/
theorem c9_stop_idle_noop_witness : stopSession initState = (initState, ("", none)) :=
  c9_stop_idle_noop initState rfl

/-- C8 counterexample: after a first `startSession` the controller is in the
`Connecting` phase (status `"Connecting..."`, session not yet active, one
channel opened); a second `startSession` in that phase is NOT rejected: it
proceeds and opens a second channel and acquires a second device, so the
state is not left unchanged. -/
theorem c8_connecting_not_rejected_counterexample :
    (startSession initState true).isSessionActive = false ∧
    (startSession initState true).status = "Connecting..." ∧
    (startSession initState true).channelsOpened = 1 ∧
    (startSession (startSession initState true) true).channelsOpened = 2 ∧
    (startSession (startSession initState true) true).devicesAcquired = 2 :=
  ⟨rfl, rfl, rfl, rfl, rfl⟩

/-- C8 amended: `startSession` is rejected (made a strict no-op) exactly in
the states with a live session, i.e. `Active` or `Paused` (`isSessionActive`
true); the `Connecting` phase is not guarded. -/
theorem c8_start_rejected_when_active (st : SessionState) (apiKey : Bool)
    (h : st.isSessionActive = true) : startSession st apiKey = st := by
  simp [startSession, h]

/-- C8 witness: a second `startSession` on an active session is a no-op. -/
theorem c8_start_rejected_when_active_witness :
    startSession (onOpen (startSession initState true)) true =
      onOpen (startSession initState true) :=
  c8_start_rejected_when_active (onOpen (startSession initState true)) true rfl

/-- A session state in which one fragment (`"hello"`) and one audio frame
(`[0]`) have been received. -/
def c1State : SessionState :=
  onAudioProcess (onMessage (onOpen (startSession initState true)) 0 "hello") [0]

/-- C1 counterexample: in an active session with a non-empty partial
transcript and non-empty archived audio, a channel termination (`onclose`)
followed by `stopSession` returns the EMPTY transcript and a null audio
container, not the partials. -/
theorem c1_partials_lost_counterexample :
    c1State.isSessionActive = true ∧
    c1State.buffer = "hello" ∧
    c1State.capturedAudioChunks = [[0]] ∧
    (stopSession (onClose c1State "network error")).2 = ("", none) :=
  ⟨rfl, rfl, rfl, rfl⟩

/-- C1 amended: a channel termination (`onclose` or `onerror`) during a
session tears the session down and DISCARDS the partial transcript and the
partial archived audio; a subsequent `stopSession` returns the empty
transcript and a null audio container. -/
theorem c1_termination_discards_partials (st : SessionState) (reason message : String) :
    (stopSession (onClose st reason)).2 = ("", none) ∧
    (stopSession (onError st message)).2 = ("", none) ∧
    (st.isSessionActive = true →
      (onClose st reason).buffer = "" ∧
      (onClose st reason).capturedAudioChunks = [] ∧
      (onClose st reason).isSessionActive = false) := by
  refine ⟨?_, ?_, ?_⟩
  · by_cases h : st.isSessionActive = true
    · simp [onClose, cleanUpSession, stopSession, h]
    · simp only [Bool.not_eq_true] at h
      simp [onClose, stopSession, h]
  · simp [onError, cleanUpSession, stopSession]
  · intro h
    simp [onClose, cleanUpSession, h]

/-- C1 witness: the amended behaviour at the concrete session of the
counterexample state. -/
theorem c1_termination_discards_partials_witness :
    (stopSession (onClose c1State "x")).2 = ("", none) ∧ (onClose c1State "x").buffer = "" :=
  ⟨(c1_termination_discards_partials c1State "x" "y").1,
   ((c1_termination_discards_partials c1State "x" "y").2.2 rfl).1⟩

/-- The frame sequence of the C7 pause scenario: two frames while active,
pause, three more frames. -/
def c7Run (f1 f2 f3 f4 f5 : List ℚ) : SessionState :=
  onAudioProcess (onAudioProcess (onAudioProcess (pauseSession
    (onAudioProcess (onAudioProcess (onOpen (startSession initState true)) f1) f2))
    f3) f4) f5

/-- C7: every captured frame is archived unconditionally and in arrival
order; a frame is sent to the channel iff the session is active and not
paused; in the scenario f1..f5 with pause before f3, the archive holds
f1..f5 in order (and the container returned by stop is built from them)
while the channel observed only f1, f2. -/
theorem c7_archive_unconditional_send_gated :
    (∀ (st : SessionState) (f : List ℚ),
      (onAudioProcess st f).capturedAudioChunks = st.capturedAudioChunks ++ [f]) ∧
    (∀ (st : SessionState) (f : List ℚ),
      (onAudioProcess st f).sent =
        st.sent ++ (if st.isSessionActive && !st.isPaused then [createBlob f] else [])) ∧
    (∀ f1 f2 f3 f4 f5 : List ℚ,
      (c7Run f1 f2 f3 f4 f5).capturedAudioChunks = [f1, f2, f3, f4, f5] ∧
      (c7Run f1 f2 f3 f4 f5).sent = [createBlob f1, createBlob f2] ∧
      (stopSession (c7Run f1 f2 f3 f4 f5)).2.2 =
        some (createWavBlob ([f1, f2, f3, f4, f5].flatten) SAMPLE_RATE)) := by
  refine ⟨?_, ?_, ?_⟩
  · intro st f
    simp only [onAudioProcess]
    split <;> rfl
  · intro st f
    simp only [onAudioProcess]
    split <;> simp_all
  · intro f1 f2 f3 f4 f5
    refine ⟨?_, ?_, ?_⟩ <;>
      simp [c7Run, onAudioProcess, pauseSession, onOpen, startSession, initState,
            stopSession, cleanUpSession]

/-- C6: a single space is prepended to an incoming fragment exactly when the
arrival gap exceeds 300ms, the buffer is non-empty, the buffer does not end
in whitespace and the fragment does not start with whitespace; the first
fragment of a session has gap zero; `"hello"` then `"world"` 500ms later
reconcile to `"hello world"`, but 50ms later to `"helloworld"`. -/
theorem c6_gap_spacing_heuristic :
    (∀ (st : SessionState) (now : ℕ) (frag : String), frag ≠ "" →
      (onMessage st now frag).buffer =
        formatBuffer (st.buffer ++
          (if 300 < gapSince st now ∧ 0 < st.buffer.length ∧
              endsWithWs st.buffer = false ∧ startsWithWs frag = false
           then " " else "") ++ frag)) ∧
    (∀ (st : SessionState) (now : ℕ), st.lastMessageTime = none → gapSince st now = 0) ∧
    (onMessage (onMessage initState 0 "hello") 500 "world").buffer = "hello world" ∧
    (onMessage (onMessage initState 0 "hello") 50 "world").buffer = "helloworld" := by
  refine ⟨?_, ?_, by decide, by decide⟩
  · intro st now frag h
    simp [onMessage, h]
  · intro st now h
    simp [gapSince, h]

/-- C6 witness: the separator characterization at a concrete first
fragment (empty buffer, gap zero: no space is prepended). -/
theorem c6_gap_spacing_heuristic_witness :
    (onMessage initState 5 "x").buffer =
      formatBuffer (initState.buffer ++
        (if 300 < gapSince initState 5 ∧ 0 < initState.buffer.length ∧
            endsWithWs initState.buffer = false ∧ startsWithWs "x" = false
         then " " else "") ++ "x") :=
  c6_gap_spacing_heuristic.1 initState 5 "x" (by decide)

/-! ## Round-trip and quantization lemmas -/

theorem b64Index_b64Char : ∀ n, n < 64 → b64Index (b64Char n) = n := by decide

theorem b64Char_ne_pad : ∀ n, n < 64 → b64Char n ≠ '=' := by decide

theorem toInt16_eq_self (n : ℤ) (h1 : -32768 ≤ n) (h2 : n ≤ 32767) : toInt16 n = n := by
  simp only [toInt16]
  split <;> omega

theorem toInt16_range (n : ℤ) : -32768 ≤ toInt16 n ∧ toInt16 n ≤ 32767 := by
  simp only [toInt16]
  split <;> omega

theorem toInt16_toU16 (q : ℤ) (h1 : -32768 ≤ q) (h2 : q ≤ 32767) :
    toInt16 ((toU16 q : ℕ) : ℤ) = q := by
  simp only [toInt16, toU16]
  split <;> omega

def atob_btoa : ∀ (bs : List ℕ), (∀ b ∈ bs, b < 256) → atob (btoa bs) = bs
  | [], _ => rfl
  | [b1], h => by
      have hb1 : b1 < 256 := h b1 (by simp)
      show atob [b64Char (b1 / 4), b64Char (b1 % 4 * 16), '=', '='] = [b1]
      simp only [atob]
      rw [if_pos trivial]
      rw [b64Index_b64Char (b1 / 4) (by omega), b64Index_b64Char (b1 % 4 * 16) (by omega)]
      simp only [List.cons.injEq, and_true]
      omega
  | [b1, b2], h => by
      have hb1 : b1 < 256 := h b1 (by simp)
      have hb2 : b2 < 256 := h b2 (by simp)
      show atob [b64Char (b1 / 4), b64Char (b1 % 4 * 16 + b2 / 16),
                 b64Char (b2 % 16 * 4), '='] = [b1, b2]
      simp only [atob]
      rw [if_neg (b64Char_ne_pad (b2 % 16 * 4) (by omega))]
      rw [if_pos trivial]
      rw [b64Index_b64Char (b1 / 4) (by omega),
          b64Index_b64Char (b1 % 4 * 16 + b2 / 16) (by omega),
          b64Index_b64Char (b2 % 16 * 4) (by omega)]
      simp only [List.cons.injEq, and_true]
      omega
  | b1 :: b2 :: b3 :: rest, h => by
      have hb1 : b1 < 256 := h b1 (by simp)
      have hb2 : b2 < 256 := h b2 (by simp)
      have hb3 : b3 < 256 := h b3 (by simp)
      have ih := atob_btoa rest (fun b hb => h b (by simp [hb]))
      show atob (b64Char (b1 / 4) :: b64Char (b1 % 4 * 16 + b2 / 16) ::
                 b64Char (b2 % 16 * 4 + b3 / 64) :: b64Char (b3 % 64) :: btoa rest) =
           b1 :: b2 :: b3 :: rest
      simp only [atob]
      rw [if_neg (b64Char_ne_pad (b2 % 16 * 4 + b3 / 64) (by omega))]
      rw [if_neg (b64Char_ne_pad (b3 % 64) (by omega))]
      rw [b64Index_b64Char (b1 / 4) (by omega),
          b64Index_b64Char (b1 % 4 * 16 + b2 / 16) (by omega),
          b64Index_b64Char (b2 % 16 * 4 + b3 / 64) (by omega),
          b64Index_b64Char (b3 % 64) (by omega)]
      rw [ih]
      simp only [List.cons.injEq, and_true]
      omega

theorem createBlobBytes_lt (data : List ℚ) : ∀ b ∈ createBlobBytes data, b < 256 := by
  intro b hb
  simp only [createBlobBytes, List.mem_flatMap, u16le, List.mem_cons,
    List.not_mem_nil, or_false, List.mem_singleton] at hb
  obtain ⟨s, _, hbs⟩ := hb
  rcases hbs with h | h <;> omega

theorem pairsToSamples_u16le (q : ℤ) (h1 : -32768 ≤ q) (h2 : q ≤ 32767) (l : List ℕ) :
    pairsToSamples (u16le (toU16 q) ++ l) = ((q : ℚ) / 32768) :: pairsToSamples l := by
  simp only [u16le, List.cons_append, List.nil_append, pairsToSamples]
  have hueq : toU16 q % 256 + 256 * (toU16 q / 256 % 256) = toU16 q := by
    simp only [toU16]
    omega
  rw [hueq, toInt16_toU16 q h1 h2]
  rfl

theorem pairsToSamples_createBlobBytes (data : List ℚ) :
    pairsToSamples (createBlobBytes data) =
      data.map (fun s => ((cbQuant s : ℤ) : ℚ) / 32768) := by
  induction data with
  | nil => rfl
  | cons s rest ih =>
      have hr := toInt16_range (truncQ (s * 32768))
      show pairsToSamples (u16le (toU16 (cbQuant s)) ++ createBlobBytes rest) = _
      rw [pairsToSamples_u16le (cbQuant s) hr.1 hr.2, ih, List.map_cons]

theorem decodePCM16_createBlob (data : List ℚ) :
    decodePCM16 (createBlob data).data =
      data.map (fun s => ((cbQuant s : ℤ) : ℚ) / 32768) := by
  show pairsToSamples (atob (btoa (createBlobBytes data))) = _
  rw [atob_btoa (createBlobBytes data) (createBlobBytes_lt data)]
  exact pairsToSamples_createBlobBytes data

theorem truncQ_intCast (n : ℤ) : truncQ ((n : ℤ) : ℚ) = n := by
  unfold truncQ
  split
  · exact Int.floor_intCast n
  · exact Int.ceil_intCast n

theorem cbQuant_approx (s : ℚ) (h1 : -1 ≤ s) (h2 : s < 1) :
    |((cbQuant s : ℤ) : ℚ) / 32768 - s| ≤ 1 / 32768 := by
  have hv1 : (-32768 : ℚ) ≤ s * 32768 := by linarith
  have hv2 : s * 32768 < 32768 := by linarith
  have key : ((truncQ (s * 32768) : ℤ) : ℚ) ≤ s * 32768 + 1 ∧
      s * 32768 - 1 ≤ ((truncQ (s * 32768) : ℤ) : ℚ) ∧
      -32768 ≤ truncQ (s * 32768) ∧ truncQ (s * 32768) ≤ 32767 := by
    unfold truncQ
    split
    · rename_i hpos
      have hfl := Int.floor_le (s * 32768)
      have hfg := Int.sub_one_lt_floor (s * 32768)
      have hup : (⌊s * 32768⌋ : ℚ) < 32768 := lt_of_le_of_lt hfl hv2
      have hup2 : ⌊s * 32768⌋ < (32768 : ℤ) := by exact_mod_cast hup
      have hlo : (0 : ℤ) ≤ ⌊s * 32768⌋ := Int.floor_nonneg.mpr hpos
      refine ⟨by linarith, by linarith, by omega, by omega⟩
    · rename_i hneg
      push_neg at hneg
      have hcl := Int.le_ceil (s * 32768)
      have hcg := Int.ceil_lt_add_one (s * 32768)
      have hlo : (-32768 : ℚ) ≤ (⌈s * 32768⌉ : ℚ) := le_trans hv1 hcl
      have hlo2 : (-32768 : ℤ) ≤ ⌈s * 32768⌉ := by exact_mod_cast hlo
      have hup : ⌈s * 32768⌉ ≤ (0 : ℤ) := Int.ceil_le.mpr (by exact_mod_cast le_of_lt hneg)
      refine ⟨by linarith, by linarith, by omega, by omega⟩
  have hcb : toInt16 (truncQ (s * 32768)) = truncQ (s * 32768) :=
    toInt16_eq_self (truncQ (s * 32768)) key.2.2.1 key.2.2.2
  rw [show cbQuant s = toInt16 (truncQ (s * 32768)) from rfl, hcb]
  have hdiff : ((truncQ (s * 32768) : ℤ) : ℚ) / 32768 - s =
      (((truncQ (s * 32768) : ℤ) : ℚ) - s * 32768) / 32768 := by ring
  rw [hdiff, abs_div, abs_of_pos (by norm_num : (0 : ℚ) < 32768)]
  have habs : |((truncQ (s * 32768) : ℤ) : ℚ) - s * 32768| ≤ 1 :=
    abs_le.mpr ⟨by linarith [key.2.1], by linarith [key.1]⟩
  gcongr

theorem cbQuant_one : cbQuant 1 = -32768 := by
  have h1 : ((1 : ℚ) * 32768) = ((32768 : ℤ) : ℚ) := by norm_num
  rw [show cbQuant 1 = toInt16 (truncQ ((1 : ℚ) * 32768)) from rfl, h1, truncQ_intCast]
  decide

theorem wavQuant_one : wavQuant 1 = 32767 := by
  simp only [wavQuant]
  rw [min_self, max_eq_right (by norm_num : (-1 : ℚ) ≤ 1)]
  rw [if_neg (by norm_num : ¬((1 : ℚ) < 0)), one_mul]
  rw [show (32767 : ℚ) = ((32767 : ℤ) : ℚ) by norm_num, truncQ_intCast]
  decide

/-- C3 counterexample: the sample value 1 lies in [-1, 1] but the frame
encoder scales it to 32768, which wraps to -32768 in the 16-bit store;
decoding returns -1, an error of 2, far beyond one quantization step. -/
theorem c3_wraparound_counterexample :
    decodePCM16 (createBlob [(1 : ℚ)]).data = [-1] ∧
    ¬ |(decodePCM16 (createBlob [(1 : ℚ)]).data).getD 0 0 - (1 : ℚ)| ≤ 1 / 32768 := by
  have hd : decodePCM16 (createBlob [(1 : ℚ)]).data = [-1] := by
    rw [decodePCM16_createBlob]
    simp only [List.map_cons, List.map_nil, cbQuant_one]
    norm_num
  refine ⟨hd, ?_⟩
  rw [hd]
  norm_num [List.getD]

/-- C3 amended: for sample blocks with values in [-1, 1) (excluding the
wrap-around point 1), decoding the base64 PCM16LE data produced by
`createBlob` recovers each sample to within one quantization step. -/
theorem c3_roundtrip_within_quantum (s : List ℚ) (hs : ∀ x ∈ s, -1 ≤ x ∧ x < 1) :
    (decodePCM16 (createBlob s).data).length = s.length ∧
    ∀ i, i < s.length →
      |(decodePCM16 (createBlob s).data).getD i 0 - s.getD i 0| ≤ 1 / 32768 := by
  rw [decodePCM16_createBlob]
  refine ⟨by simp, ?_⟩
  intro i hi
  rw [List.getD_eq_getElem _ _ (by simpa using hi), List.getD_eq_getElem _ _ hi,
      List.getElem_map]
  have hm : s[i] ∈ s := List.getElem_mem hi
  exact cbQuant_approx s[i] (hs s[i] hm).1 (hs s[i] hm).2

/-- C3 witness: the round trip at the concrete block [-1/2]. -/
theorem c3_roundtrip_within_quantum_witness :
    (decodePCM16 (createBlob [-(1 : ℚ)/2]).data).length = ([-(1 : ℚ)/2] : List ℚ).length ∧
    ∀ i, i < ([-(1 : ℚ)/2] : List ℚ).length →
      |(decodePCM16 (createBlob [-(1 : ℚ)/2]).data).getD i 0 -
        ([-(1 : ℚ)/2] : List ℚ).getD i 0| ≤ 1 / 32768 :=
  c3_roundtrip_within_quantum [-(1 : ℚ)/2] (by
    intro x hx
    rw [List.mem_singleton] at hx
    subst hx
    norm_num)

/-- C4 counterexample: at the in-range sample 1 the container write loop
produces 32767 (scale by 0x7FFF) while the frame encoder produces -32768
(scale by 0x8000 with wrap-around); already at rest any positive sample
scales differently (0x7FFF vs 0x8000). -/
theorem c4_positive_scaling_counterexample :
    wavQuant (1 : ℚ) = 32767 ∧ cbQuant (1 : ℚ) = -32768 ∧
    wavQuant (1 : ℚ) ≠ cbQuant (1 : ℚ) := by
  refine ⟨wavQuant_one, cbQuant_one, ?_⟩
  rw [wavQuant_one, cbQuant_one]
  decide

/-- C4 amended: the container's write loop applies the same truncating
16-bit conversion as the frame encoder but scales negative samples by 32768
and non-negative samples by 32767 (after clamping); the two agree exactly on
samples in [-1, 0]. -/
theorem c4_container_matches_encoder_on_nonpos (s : ℚ) (h1 : -1 ≤ s) (h2 : s ≤ 0) :
    wavQuant s = cbQuant s := by
  have hmin : min (1 : ℚ) s = s := min_eq_right (by linarith)
  have hmax : max (-1 : ℚ) s = s := max_eq_right h1
  simp only [wavQuant, hmin, hmax, cbQuant]
  rcases lt_or_eq_of_le h2 with h | h
  · rw [if_pos h]
  · subst h
    rw [if_neg (lt_irrefl (0 : ℚ)), zero_mul, zero_mul]

/-- C4 witness: container and encoder agree at the concrete sample -1/2. -/
theorem c4_container_matches_encoder_on_nonpos_witness :
    wavQuant (-(1 : ℚ)/2) = cbQuant (-(1 : ℚ)/2) :=
  c4_container_matches_encoder_on_nonpos (-(1 : ℚ)/2) (by norm_num) (by norm_num)

/-! ## Container header facts -/

theorem wavData_length (pcmData : List ℚ) : (wavData pcmData).length = 2 * pcmData.length := by
  induction pcmData with
  | nil => rfl
  | cons a l ih =>
      show (u16le (toU16 (wavQuant a)) ++ wavData l).length = _
      simp only [List.length_append, ih, u16le, List.length_cons, List.length_nil]
      omega

set_option maxHeartbeats 8000000 in
/-- C5: for a container built from n samples at rate r, the 32-bit field at
byte offset 40 (data-chunk size) is 2n, the field at offset 28 (byte rate)
is 2r, the 16-bit fields at offsets 32 and 34 are 2 (block align) and 16
(bits per sample), and the container is 44 + 2n bytes long. -/
theorem c5_wav_header_fields (pcmData : List ℚ) (r : ℕ)
    (hn : 2 * pcmData.length < 4294967296) (hr : 2 * r < 4294967296) :
    readU32 (createWavBlob pcmData r) 40 = 2 * pcmData.length ∧
    readU32 (createWavBlob pcmData r) 28 = 2 * r ∧
    readU16 (createWavBlob pcmData r) 32 = 2 ∧
    readU16 (createWavBlob pcmData r) 34 = 16 ∧
    (createWavBlob pcmData r).length = 44 + 2 * pcmData.length := by
  have g40 : (createWavBlob pcmData r).getD 40 0 = pcmData.length * 2 % 256 := rfl
  have g41 : (createWavBlob pcmData r).getD 41 0 = pcmData.length * 2 / 256 % 256 := rfl
  have g42 : (createWavBlob pcmData r).getD 42 0 = pcmData.length * 2 / 65536 % 256 := rfl
  have g43 : (createWavBlob pcmData r).getD 43 0 = pcmData.length * 2 / 16777216 % 256 := rfl
  have g28 : (createWavBlob pcmData r).getD 28 0 = r * 2 % 256 := rfl
  have g29 : (createWavBlob pcmData r).getD 29 0 = r * 2 / 256 % 256 := rfl
  have g30 : (createWavBlob pcmData r).getD 30 0 = r * 2 / 65536 % 256 := rfl
  have g31 : (createWavBlob pcmData r).getD 31 0 = r * 2 / 16777216 % 256 := rfl
  have g32 : (createWavBlob pcmData r).getD 32 0 = 2 := rfl
  have g33 : (createWavBlob pcmData r).getD 33 0 = 0 := rfl
  have g34 : (createWavBlob pcmData r).getD 34 0 = 16 := rfl
  have g35 : (createWavBlob pcmData r).getD 35 0 = 0 := rfl
  refine ⟨?_, ?_, ?_, ?_, ?_⟩
  · show (createWavBlob pcmData r).getD 40 0 + 256 * (createWavBlob pcmData r).getD 41 0 +
      65536 * (createWavBlob pcmData r).getD 42 0 +
      16777216 * (createWavBlob pcmData r).getD 43 0 = 2 * pcmData.length
    rw [g40, g41, g42, g43]
    omega
  · show (createWavBlob pcmData r).getD 28 0 + 256 * (createWavBlob pcmData r).getD 29 0 +
      65536 * (createWavBlob pcmData r).getD 30 0 +
      16777216 * (createWavBlob pcmData r).getD 31 0 = 2 * r
    rw [g28, g29, g30, g31]
    omega
  · show (createWavBlob pcmData r).getD 32 0 + 256 * (createWavBlob pcmData r).getD 33 0 = 2
    rw [g32, g33]
  · show (createWavBlob pcmData r).getD 34 0 + 256 * (createWavBlob pcmData r).getD 35 0 = 16
    rw [g34, g35]
  · simp only [createWavBlob, u32le, u16le, List.length_append, List.length_cons,
      List.length_nil, wavData_length]

/-- C5 witness: the header fields of the container built from the two
samples [0, 1] at rate 16000. -/
theorem c5_wav_header_fields_witness :
    readU32 (createWavBlob [0, 1] 16000) 40 = 2 * ([0, (1 : ℚ)] : List ℚ).length ∧
    readU32 (createWavBlob [0, 1] 16000) 28 = 2 * 16000 ∧
    readU16 (createWavBlob [0, 1] 16000) 32 = 2 ∧
    readU16 (createWavBlob [0, 1] 16000) 34 = 16 ∧
    (createWavBlob [0, (1 : ℚ)] 16000).length = 44 + 2 * ([0, (1 : ℚ)] : List ℚ).length :=
  c5_wav_header_fields [0, 1] 16000 (by norm_num) (by norm_num)

/-! ## Transcript display and trim lemmas -/

theorem isLowerAZ_toNat (c : Char) (h : isLowerAZ c = true) :
    97 ≤ c.toNat ∧ c.toNat ≤ 122 := by
  simpa [isLowerAZ] using h

theorem isJsWs_false_of_lower (c : Char) (h1 : 97 ≤ c.toNat) (h2 : c.toNat ≤ 122) :
    isJsWs c = false := by
  rw [Bool.eq_false_iff]
  intro h
  simp only [isJsWs, Bool.or_eq_true, Bool.and_eq_true, decide_eq_true_eq] at h
  omega

theorem toUpper_ne_of_lower (c : Char) (h1 : 97 ≤ c.toNat) (h2 : c.toNat ≤ 122) :
    c.toUpper ≠ c := by
  have hup : c.toUpper = Char.ofNat (c.toNat - 32) := by
    simp only [Char.toUpper]
    rw [if_pos ⟨h1, h2⟩]
  have hvalid : Nat.isValidChar (c.toNat - 32) := Or.inl (by omega)
  have htn : (Char.ofNat (c.toNat - 32)).toNat = c.toNat - 32 := by
    simp only [Char.ofNat]
    rw [dif_pos hvalid]
    rfl
  intro heq
  rw [hup] at heq
  have h3 := congrArg Char.toNat heq
  rw [htn] at h3
  omega

theorem dropWhile_append_single (p : Char → Bool) (c : Char) (hc : p c = false) :
    ∀ xs : List Char, (xs ++ [c]).dropWhile p = xs.dropWhile p ++ [c] := by
  intro xs
  induction xs with
  | nil => simp [List.dropWhile, hc]
  | cons a l ih =>
      by_cases h : p a = true
      · simp [List.dropWhile_cons, h, ih]
      · simp [List.dropWhile_cons, h]

theorem trimString_head (s : String) (c : Char) (rest : List Char)
    (hs : s.data = c :: rest) (hc : isJsWs c = false) :
    (trimString s).data.head? = some c := by
  have hnc : ¬ (isJsWs c = true) := by simp [hc]
  simp only [trimString, hs]
  show ((((c :: rest).dropWhile isJsWs).reverse.dropWhile isJsWs).reverse).head? = some c
  rw [List.dropWhile_cons, if_neg hnc, List.reverse_cons,
      dropWhile_append_single isJsWs c hc rest.reverse, List.reverse_append]
  simp

theorem splitChar_ne_nil (sep : Char) (l : List Char) : splitChar sep l ≠ [] := by
  induction l with
  | nil => simp [splitChar]
  | cons c rest ih =>
      simp only [splitChar]
      split
      · simp
      · split <;> simp

theorem splitChar_head (sep c : Char) (rest : List Char) (hc : ¬ c = sep) :
    ∃ t ls, splitChar sep (c :: rest) = (c :: t) :: ls := by
  simp only [splitChar]
  rw [if_neg hc]
  cases h : splitChar sep rest with
  | nil => exact absurd h (splitChar_ne_nil sep rest)
  | cons a as => exact ⟨a, as, rfl⟩

theorem displayLines_head (s : String) (c : Char) (rest : List Char)
    (hs : s.data = c :: rest) (hc : ¬ c = '\n') :
    ∃ t, (displayLines s).head? = some (String.mk (c.toUpper :: t)) := by
  obtain ⟨t, ls, h⟩ := splitChar_head '\n' c rest hc
  refine ⟨t, ?_⟩
  simp only [displayLines, hs, h, List.map_cons, List.head?_cons]
  rfl

/-- A concrete active session state whose buffer's first line starts with a
lowercase letter. -/
def c10State : SessionState :=
  { initState with isSessionActive := true, buffer := "hello\nthere" }

/-- C10: the live callback receives the display lines (split on newlines,
first character of each line capitalized) while `stopSession` returns the
stored buffer merely trimmed, without the capitalization: whenever the
buffer starts with a lowercase letter, the first delivered line starts with
its uppercase form but the final transcript still starts with the lowercase
letter. -/
theorem c10_final_transcript_uncapitalized :
    (∀ (st : SessionState) (now : ℕ) (frag : String), frag ≠ "" →
      (onMessage st now frag).delivered =
        st.delivered ++ [displayLines (onMessage st now frag).buffer]) ∧
    (∀ st : SessionState, st.isSessionActive = true →
      (stopSession st).2.1 = trimString st.buffer) ∧
    (∀ (st : SessionState) (c : Char) (rest : List Char),
      st.isSessionActive = true → st.buffer.data = c :: rest → isLowerAZ c = true →
      (stopSession st).2.1.data.head? = some c ∧
      (∃ t, (displayLines st.buffer).head? = some (String.mk (c.toUpper :: t))) ∧
      c.toUpper ≠ c) := by
  refine ⟨?_, ?_, ?_⟩
  · intro st now frag h
    simp [onMessage, h]
  · intro st hact
    simp [stopSession, hact]
  · intro st c rest hact hbuf hlow
    obtain ⟨h1, h2⟩ := isLowerAZ_toNat c hlow
    have hcn : isJsWs c = false := isJsWs_false_of_lower c h1 h2
    have hne : ¬ c = '\n' := by
      intro h
      subst h
      exact absurd h1 (by decide)
    refine ⟨?_, displayLines_head st.buffer c rest hbuf hne, toUpper_ne_of_lower c h1 h2⟩
    have hstop : (stopSession st).2.1 = trimString st.buffer := by simp [stopSession, hact]
    rw [hstop]
    exact trimString_head st.buffer c rest hbuf hcn

/-- C10 witness: at a concrete active session with buffer
`"hello\nthere"`, stop returns a transcript starting with `'h'` while the
first delivered display line starts with `'H'`. -/
theorem c10_final_transcript_uncapitalized_witness :
    ((stopSession c10State).2.1 = trimString c10State.buffer) ∧
    ((stopSession c10State).2.1.data.head? = some 'h' ∧
      (∃ t, (displayLines c10State.buffer).head? = some (String.mk ('h'.toUpper :: t))) ∧
      'h'.toUpper ≠ 'h') :=
  ⟨c10_final_transcript_uncapitalized.2.1 c10State rfl,
   c10_final_transcript_uncapitalized.2.2 c10State 'h' "ello\nthere".data rfl rfl (by decide)⟩
